import Mathlib

/-!
Verification development for the receipt OCR extraction engine of this
repository.  The definitions below are a shallow embedding of
src/api/receipt_parser.py (class ReceiptParser) and of the response
construction in src/api/app.py (scan_receipt).  Lines are modelled as
List Char (Python indexes strings by code point); the regular
expressions of the source are modelled by explicit, executable scanning
functions with the same semantics on the character sets involved.
Python regex classes are modelled as follows: the \s class and
str.strip() use the Unicode whitespace set pyIsSpace below; the \d and
[0-9] classes are modelled as ASCII digits (other Unicode decimal
digits are outside the scope of the claims); the word class of the
name-cleaning step is modelled over ASCII alphanumerics, underscore and
the Japanese scripts the program handles.
-/

/-- Python str.isspace characters relevant here (space, tab, newline,
carriage return, vertical tab, form feed, file separators, next line,
no-break space, ogham space, general punctuation spaces, line and
paragraph separators, narrow no-break space, medium mathematical space,
ideographic space). -/
def pyIsSpace (c : Char) : Bool :=
  c = ' ' || c = '\t' || c = '\n' || c = '\r' ||
  c.toNat = 0x0b || c.toNat = 0x0c ||
  c.toNat = 0x1c || c.toNat = 0x1d || c.toNat = 0x1e || c.toNat = 0x1f ||
  c.toNat = 0x85 || c.toNat = 0xa0 || c.toNat = 0x1680 ||
  (0x2000 ≤ c.toNat && c.toNat ≤ 0x200a) ||
  c.toNat = 0x2028 || c.toNat = 0x2029 || c.toNat = 0x202f ||
  c.toNat = 0x205f || c.toNat = 0x3000

/-- ASCII digit, modelling the \d and [0-9] classes of the source. -/
def isAsciiDigit (c : Char) : Bool := '0' ≤ c && c ≤ '9'

/-- Numeric value of an ASCII digit. -/
def digitVal (c : Char) : Nat := c.toNat - 48

/-- Python int() restricted to the digit strings that reach it in
receipt_parser.py (group 1 of the price pattern plus appended or
prepended digits is always a nonempty ASCII digit run; on anything
else int() raises and the caller catches, modelled by none). -/
def digitsToNat? (cs : List Char) : Option Nat :=
  if cs ≠ [] ∧ cs.all isAsciiDigit = true then
    some (cs.foldl (fun a c => a * 10 + digitVal c) 0)
  else none

/-- Removes trailing characters satisfying p, as in the trailing part of
Python strip and of an anchored trailing re.sub. -/
def trimTrailing (p : Char → Bool) (cs : List Char) : List Char :=
  (cs.reverse.dropWhile p).reverse

/-- Removes characters satisfying p from both ends, as Python strip. -/
def trimBoth (p : Char → Bool) (cs : List Char) : List Char :=
  trimTrailing p (cs.dropWhile p)

/-- Python str.strip() with no argument. -/
def pyStrip (cs : List Char) : List Char := trimBoth pyIsSpace cs

/-- Substring containment, modelling re.search of a literal pattern. -/
def containsSub (needle : List Char) : List Char → Bool
  | [] => needle.isEmpty
  | c :: cs => needle.isPrefixOf (c :: cs) || containsSub needle cs

/-- Search for one-or-more digits followed by the character t, that is
the patterns of shape \d+年 of the exclusion table: a match exists iff
some digit is immediately followed by t. -/
def containsDigitThen (t : Char) : List Char → Bool
  | a :: b :: rest => (isAsciiDigit a && b = t) || containsDigitThen t (b :: rest)
  | _ => false

/-- Search for the pattern \d+:\d+: a match exists iff some digit,
colon, digit appear consecutively. -/
def containsDigitColonDigit : List Char → Bool
  | a :: b :: c :: rest =>
    (isAsciiDigit a && b = ':' && isAsciiDigit c) ||
      containsDigitColonDigit (b :: c :: rest)
  | _ => false

/-- Search for the pattern [0-9]{4,}: four consecutive ASCII digits. -/
def containsFourDigits : List Char → Bool
  | a :: b :: c :: d :: rest =>
    (isAsciiDigit a && isAsciiDigit b && isAsciiDigit c && isAsciiDigit d) ||
      containsFourDigits (b :: c :: d :: rest)
  | _ => false

/-- Search for a pattern of shape X.*Y on a newline-free line: the
character x occurs and the literal sub occurs somewhere after it. -/
def existsCharThenSub (x : Char) (sub : List Char) : List Char → Bool
  | [] => false
  | a :: rest => (a = x && containsSub sub rest) || existsCharThenSub x sub rest

/-- Match of X\s*Y\s*Z anchored at the head of the list (the \s runs
are greedy; since Y and Z are not whitespace no backtracking arises). -/
def matchSpacedTripleAt (x y z : Char) : List Char → Bool
  | [] => false
  | a :: rest =>
    a = x &&
      (match rest.dropWhile pyIsSpace with
       | [] => false
       | b :: rest2 =>
         b = y &&
           (match rest2.dropWhile pyIsSpace with
            | [] => false
            | c :: _ => c = z))

/-- Search for a pattern of shape X\s*Y\s*Z anywhere in the line. -/
def containsSpacedTriple (x y z : Char) : List Char → Bool
  | [] => false
  | a :: rest => matchSpacedTripleAt x y z (a :: rest) || containsSpacedTriple x y z rest

/-- Search of the total pattern of ReceiptParser, the alternation of
合計, 小計, 計, お買上, 買上, 言十, 書十 (receipt_parser.py line 36). -/
def totalSearch (s : List Char) : Bool :=
  containsSub (("合計").toList) s || containsSub (("小計").toList) s ||
  containsSub (("計").toList) s || containsSub (("お買上").toList) s ||
  containsSub (("買上").toList) s || containsSub (("言十").toList) s ||
  containsSub (("書十").toList) s

/-- Search of the EXCLUDE_PATTERNS table (receipt_parser.py lines 10
to 26), one disjunct per pattern, in source order. -/
def excludeSearch (s : List Char) : Bool :=
  containsSub (("対象").toList) s || containsSub (("消費税").toList) s ||
  containsSub (("税等").toList) s || containsSub (("内)").toList) s ||
  containsSub (("税込").toList) s || containsSub (("尼対").toList) s ||
  existsCharThenSub '史' (("半旬").toList) s ||
  containsSub (("交通系").toList) s || containsSub (("マネ").toList) s ||
  containsSub (("支払").toList) s || containsSub (("カード").toList) s ||
  containsSub (("番号").toList) s || containsSub (("残高").toList) s ||
  containsSub (("交高").toList) s || containsSub (("通泉").toList) s ||
  containsSub (("通系").toList) s ||
  containsSub (("レジ").toList) s || containsSub (("領収").toList) s ||
  containsSub (("登録番号").toList) s || containsSub (("電話").toList) s ||
  containsSub (("FamilyMart").toList) s || containsSub (("Faimilly").toList) s ||
  containsDigitThen '年' s || containsDigitThen '月' s || containsDigitThen '日' s ||
  containsDigitColonDigit s ||
  containsSub (("クーポン").toList) s || containsSub (("QR").toList) s ||
  containsSub (("ギフト").toList) s || containsSub (("アプリ").toList) s ||
  containsSub (("ポイント").toList) s || containsSub (("ファミマ").toList) s ||
  containsSub (("ペイ").toList) s ||
  containsFourDigits s ||
  containsSub (("消明").toList) s || containsSpacedTriple '守' '。' '言' s ||
  containsSub (("紅了").toList) s ||
  containsSub (("器還").toList) s || containsSub (("間較").toList) s ||
  containsSub (("灯倫").toList) s || containsSub (("新窒").toList) s ||
  containsSpacedTriple '病' '。' '収' s || containsSub (("織").toList) s ||
  containsSub (("還較").toList) s

/-- Character class [a-zA-Z0-9ぁ-んァ-ヶー一-龯] of the symbol-only
rejection regex of _should_exclude (receipt_parser.py line 188). -/
def isNameChar (c : Char) : Bool :=
  ('a' ≤ c && c ≤ 'z') || ('A' ≤ c && c ≤ 'Z') || ('0' ≤ c && c ≤ '9') ||
  (0x3041 ≤ c.toNat && c.toNat ≤ 0x3093) ||
  (0x30a1 ≤ c.toNat && c.toNat ≤ 0x30f6) ||
  c.toNat = 0x30fc ||
  (0x4e00 ≤ c.toNat && c.toNat ≤ 0x9faf)

/-- ReceiptParser._should_exclude (receipt_parser.py lines 174 to 195):
a pattern of the exclusion table matches the name or the full line, or
the name is shorter than two characters, or the name is nonempty and
made only of characters outside the name class, or the name is exactly
one of the four decorative strings. -/
def shouldExclude (productName fullLine : List Char) : Bool :=
  excludeSearch productName || excludeSearch fullLine ||
  decide (productName.length < 2) ||
  (!productName.isEmpty && productName.all (fun c => !(isNameChar c))) ||
  productName = (("軽").toList) || productName = (("◎").toList) ||
  productName = (("@").toList) || productName = (("○").toList)

/-- Characters stripped from both ends at the start of
_clean_product_name (receipt_parser.py line 202). -/
def cleanStripChar (c : Char) : Bool :=
  c = ' ' || c = '\t' || c = '\n' || c = '\r' || c.toNat = 0x0c || c.toNat = 0x0b ||
  c = '。' || c = '、' || c = '，' || c = '．' || c = ',' || c = '.' ||
  c = ':' || c = '：' || c = ';' || c = '；'

/-- Word-like characters kept at the head of a name by the leading
re.sub of _clean_product_name (class [\w◎@ぁ-んァ-ヶー一-龯], line 209).
Python \w is modelled over ASCII alphanumerics, underscore and the
Japanese scripts the program handles. -/
def isWordKeepChar (c : Char) : Bool :=
  ('a' ≤ c && c ≤ 'z') || ('A' ≤ c && c ≤ 'Z') || ('0' ≤ c && c ≤ '9') || c = '_' ||
  c = '◎' || c = '@' ||
  (0x3005 ≤ c.toNat && c.toNat ≤ 0x3007) ||
  (0x3041 ≤ c.toNat && c.toNat ≤ 0x3096) ||
  (0x309d ≤ c.toNat && c.toNat ≤ 0x309f) ||
  (0x30a1 ≤ c.toNat && c.toNat ≤ 0x30fa) ||
  (0x30fc ≤ c.toNat && c.toNat ≤ 0x30ff) ||
  (0x4e00 ≤ c.toNat && c.toNat ≤ 0x9fff)

/-- Trailing punctuation class [。、，．,.] of the final re.sub of
_clean_product_name (receipt_parser.py line 212). -/
def trailingPunct (c : Char) : Bool :=
  c = '。' || c = '、' || c = '，' || c = '．' || c = ',' || c = '.'

/-- ReceiptParser._clean_product_name (receipt_parser.py lines 197 to
214): strip surrounding blanks and punctuation, delete every
whitespace character, delete leading non-word characters, delete
trailing punctuation. -/
def cleanProductName (name : List Char) : List Char :=
  let n1 := trimBoth cleanStripChar name
  let n2 := n1.filter (fun c => !(pyIsSpace c))
  let n3 := n2.dropWhile (fun c => !(isWordKeepChar c))
  trimTrailing trailingPunct n3

/-- Currency marker class [¥￥\\%] of the price pattern
(receipt_parser.py line 33). -/
def isMarker (c : Char) : Bool := c = '¥' || c = '￥' || c = '\\' || c = '%'

/-- Trailing marker class [/\\軽円] of the price pattern. -/
def isSuffixMark (c : Char) : Bool := c = '/' || c = '\\' || c = '軽' || c = '円'

/-- Takes a greedy run of at most n ASCII digits from the head of the
list, returning the run and the remainder. -/
def takeDigitsUpTo : Nat → List Char → List Char × List Char
  | 0, cs => ([], cs)
  | _ + 1, [] => ([], [])
  | n + 1, c :: cs =>
    if isAsciiDigit c then
      let r := takeDigitsUpTo n cs
      (c :: r.1, r.2)
    else ([], c :: cs)

/-- Attempt to match the price pattern [¥￥\\%]\s*(\d{2,5})([/\\軽円]?)
at the head of the list.  On success returns the total consumed
length, group 1 (the digit run) and group 2 (the optional trailing
marker).  The \s run and the digit run are greedy; since whitespace,
digits and the marker classes are disjoint, the greedy scan agrees
with the backtracking regex engine. -/
def matchAt : List Char → Option (Nat × List Char × Option Char)
  | [] => none
  | c :: cs =>
    if isMarker c then
      let spLen := (cs.takeWhile pyIsSpace).length
      let rest1 := cs.drop spLen
      let td := takeDigitsUpTo 5 rest1
      if td.1.length < 2 then none
      else
        match td.2 with
        | d :: _ =>
          if isSuffixMark d then some (1 + spLen + td.1.length + 1, td.1, some d)
          else some (1 + spLen + td.1.length, td.1, none)
        | [] => some (1 + spLen + td.1.length, td.1, none)
    else none

/-- One located price candidate: its span within the line (code point
offsets, end exclusive), group 1 and group 2 of the price pattern. -/
structure PMatch where
  start : Nat
  stop : Nat
  digits : List Char
  suffix : Option Char
deriving DecidableEq

/-- Scanner worker for re.finditer of the price pattern: at each
position attempt a match; on success record it and resume after its
end, otherwise advance one character.  The fuel argument starts at the
list length and each step consumes at least one character, so the fuel
never runs out before the list does. -/
def findMatchesAux : Nat → List Char → Nat → List PMatch
  | 0, _, _ => []
  | _ + 1, [], _ => []
  | fuel + 1, c :: rest, pos =>
    match matchAt (c :: rest) with
    | some (len, ds, suf) =>
      ⟨pos, pos + len, ds, suf⟩ :: findMatchesAux fuel (rest.drop (len - 1)) (pos + len)
    | none => findMatchesAux fuel rest (pos + 1)

/-- re.finditer of the price pattern over a line, leftmost
non-overlapping matches in order (receipt_parser.py line 53). -/
def findMatches (cs : List Char) (pos : Nat) : List PMatch :=
  findMatchesAux cs.length cs pos

/-- The replacement table of _correct_ocr_price (receipt_parser.py
lines 138 to 144), in insertion order. -/
def ocrReplacements : List (Char × Char) :=
  [('/', '7'), ('l', '1'), ('I', '1'), ('B', '8'), ('b', '8'),
   ('O', '0'), ('o', '0'), ('S', '5'), ('s', '5'), ('Z', '2'), ('z', '2')]

/-- The replacement loop of _correct_ocr_price (lines 146 to 149):
for each table entry, if the old character occurs, replace every
occurrence and record that a correction happened. -/
def applyReplacements (s : List Char) : List Char × Bool :=
  ocrReplacements.foldl
    (fun acc p =>
      if p.1 ∈ acc.1 then
        (acc.1.map (fun c => if c = p.1 then p.2 else c), true)
      else acc)
    (s, false)

/-- ReceiptParser._correct_ocr_price (receipt_parser.py lines 127 to
172).  After the character replacements, a two-character token is
either prepended with 1 (value 50 to 99 and no slash-like character in
the context) or, for values 10 to 49 with a slash-like character in
the context, appended with 7 when the original token itself held a
slash-like character.  A token int() cannot parse is left as is (the
except branch). -/
def correctOcrPrice (priceStr context : List Char) : List Char × Bool :=
  let original := priceStr
  let res := applyReplacements priceStr
  let s := res.1
  let corrected := res.2
  if s.length = 2 then
    match digitsToNat? s with
    | none => (s, corrected)
    | some num =>
      if 50 ≤ num ∧ num ≤ 99 ∧ '/' ∉ context ∧ '\\' ∉ context then
        ('1' :: s, true)
      else if 10 ≤ num ∧ num ≤ 49 ∧
          ((∃ c ∈ context, c = '/' ∨ c = '\\') ∨ '軽' ∈ context) then
        if '/' ∈ original ∨ '\\' ∈ original then (s ++ ['7'], true)
        else (s, corrected)
      else (s, corrected)
  else (s, corrected)

/-- One extracted line item, a name and a price. -/
structure Item where
  name : List Char
  price : Nat
deriving DecidableEq

/-- The loop state of ReceiptParser.parse: the items found so far, the
total found so far and the recorded prices (receipt_parser.py lines
43 to 45). -/
structure LoopState where
  items : List Item
  total : Option Nat
  allPrices : List Nat
deriving DecidableEq

/-- The result ReceiptParser.parse returns (lines 122 to 125). -/
structure ParseResult where
  items : List Item
  total : Option Nat
deriving DecidableEq

/-- The initial loop state. -/
def initState : LoopState := ⟨[], none, []⟩

/-- The loop body of ReceiptParser.parse (receipt_parser.py lines 47
to 105).  A stripped line shorter than three characters is skipped;
the last price match is taken; a trailing slash group appends a 7 to
the digits; the corrected token must parse and lie in 10 to 10000; a
line matching the total pattern sets the total when the price is at
least 100 and never yields an item; excluded names and names shorter
than two characters after cleaning are dropped; an item equal in name
and price to an earlier one is dropped, otherwise it is appended and
its price recorded. -/
def processLine (st : LoopState) (rawLine : List Char) : LoopState :=
  let line := pyStrip rawLine
  if line.length < 3 then st
  else
    match (findMatches line 0).getLast? with
    | none => st
    | some m =>
      let priceStr0 := if m.suffix = some '/' then m.digits ++ ['7'] else m.digits
      let context := (line.drop m.start).take (m.stop - m.start + 5)
      let priceStr := (correctOcrPrice priceStr0 context).1
      match digitsToNat? priceStr with
      | none => st
      | some price =>
        if ¬ (10 ≤ price ∧ price ≤ 10000) then st
        else
          let productName := pyStrip (line.take m.start)
          if totalSearch line || totalSearch productName then
            if 100 ≤ price then { st with total := some price } else st
          else if shouldExclude productName line then st
          else
            let cleaned := cleanProductName productName
            if cleaned ≠ [] ∧ 2 ≤ cleaned.length then
              if ∃ it ∈ st.items, it.name = cleaned ∧ it.price = price then st
              else { st with items := st.items ++ [⟨cleaned, price⟩],
                             allPrices := st.allPrices ++ [price] }
            else st

/-- Python split on the newline character, keeping empty pieces. -/
def splitLines : List Char → List (List Char)
  | [] => [[]]
  | c :: rest =>
    match splitLines rest with
    | [] => [[]]
    | l :: ls => if c = '\n' then [] :: l :: ls else (c :: l) :: ls

/-- Sum of the recorded prices, sum(all_prices) at line 110. -/
def listSum (l : List Nat) : Nat := l.foldl (· + ·) 0

/-- Maximum of the recorded prices with default 0, the expression
max(all_prices) if all_prices else 0 at line 112. -/
def listMax0 (l : List Nat) : Nat := l.foldl max 0

/-- The total reconciliation of ReceiptParser.parse (receipt_parser.py
lines 107 to 120).  When no total was found and prices were recorded,
either the maximum price becomes the total and every item carrying it
is removed (more than one price and the maximum is at least eighty
percent of the sum; the source compares against the float product
calculated_total * 0.8, which for the integer magnitudes reachable
here decides exactly as the rational comparison 5 * max >= 4 * sum),
or the sum becomes the total. -/
def reconcile (st : LoopState) : ParseResult :=
  if st.total.getD 0 = 0 ∧ st.allPrices ≠ [] then
    if st.allPrices.length > 1 ∧
        5 * listMax0 st.allPrices ≥ 4 * listSum st.allPrices then
      ⟨st.items.filter (fun it => it.price != listMax0 st.allPrices),
        some (listMax0 st.allPrices)⟩
    else ⟨st.items, some (listSum st.allPrices)⟩
  else ⟨st.items, st.total⟩

/-- The line loop of ReceiptParser.parse over all lines. -/
def scanLines (ls : List (List Char)) : LoopState :=
  ls.foldl processLine initState

/-- The loop state after scanning a whole transcript. -/
def scanState (s : String) : LoopState :=
  scanLines (splitLines s.toList)

/-- ReceiptParser.parse (receipt_parser.py lines 38 to 125). -/
def parse (s : String) : ParseResult :=
  reconcile (scanState s)

/-- The total as set by the line loop, that is by total-declaration
lines only, before the fallback inference. -/
def declaredTotal (s : String) : Option Nat :=
  (scanState s).total

/-- The fields of the JSON body built by scan_receipt in src/api/app.py
lines 99 to 105, as a function of the OCR transcript: the success
field is the literal True of line 100, the items and total fields come
from the parser (the formatted and raw text fields carry no new
information and are omitted). -/
structure ScanResponse where
  success : Bool
  items : List Item
  total : Option Nat
deriving DecidableEq

/-- The response scan_receipt returns once OCR produced a transcript
(the exception path of app.py returns an HTTP 500 error instead and
carries no success field). -/
def scanResponse (ocrText : String) : ScanResponse :=
  let r := parse ocrText
  { success := true, items := r.items, total := r.total }

lemma processLine_spec (st : LoopState) (rawLine : List Char) :
    processLine st rawLine = st ∨
    (∃ p, 100 ≤ p ∧ p ≤ 10000 ∧ processLine st rawLine = { st with total := some p }) ∨
    (∃ nm p, 10 ≤ p ∧ p ≤ 10000 ∧ 2 ≤ nm.length ∧
      (∀ it ∈ st.items, ¬ (it.name = nm ∧ it.price = p)) ∧
      processLine st rawLine =
        { st with items := st.items ++ [⟨nm, p⟩], allPrices := st.allPrices ++ [p] }) := by
  unfold processLine
  dsimp only
  split
  · exact Or.inl rfl
  · split
    · exact Or.inl rfl
    · split
      · exact Or.inl rfl
      · next price _ =>
        split
        · exact Or.inl rfl
        · next hrange =>
          rw [not_not] at hrange
          split
          · split
            · next h100 =>
              exact Or.inr (Or.inl ⟨price, h100, hrange.2, rfl⟩)
            · exact Or.inl rfl
          · split
            · exact Or.inl rfl
            · split
              · next hclean =>
                split
                · exact Or.inl rfl
                · next hdup =>
                  push_neg at hdup
                  exact Or.inr (Or.inr ⟨_, price, hrange.1, hrange.2, hclean.2,
                    fun it hit => by
                      intro hc
                      exact hdup it hit hc.1 hc.2, rfl⟩)
              · exact Or.inl rfl

/-- Pairwise distinctness of the name and price keys of the item list. -/
def keyDistinct (l : List Item) : Prop :=
  List.Pairwise (fun a b => ¬ (a.name = b.name ∧ a.price = b.price)) l

/-- Invariant maintained by the line loop: item prices lie in 10 to
10000 and item names have at least two characters; a total set by the
loop lies in 100 to 10000; the recorded prices are exactly the item
prices in order; item keys are pairwise distinct. -/
def stInv (st : LoopState) : Prop :=
  (∀ it ∈ st.items, 10 ≤ it.price ∧ it.price ≤ 10000 ∧ 2 ≤ it.name.length) ∧
  (∀ t, st.total = some t → 100 ≤ t ∧ t ≤ 10000) ∧
  st.allPrices = st.items.map Item.price ∧
  keyDistinct st.items

lemma stInv_init : stInv initState := by
  refine ⟨?_, ?_, rfl, List.Pairwise.nil⟩ <;> simp [initState]

lemma stInv_processLine (st : LoopState) (rawLine : List Char) (h : stInv st) :
    stInv (processLine st rawLine) := by
  obtain ⟨hi, ht, hm, hp⟩ := h
  rcases processLine_spec st rawLine with heq | ⟨p, h1, h2, heq⟩ | ⟨nm, p, h1, h2, h3, h4, heq⟩
  · rw [heq]; exact ⟨hi, ht, hm, hp⟩
  · rw [heq]
    refine ⟨hi, ?_, hm, hp⟩
    intro t htt
    cases htt
    exact ⟨h1, h2⟩
  · rw [heq]
    refine ⟨?_, ht, ?_, ?_⟩
    · intro it hit
      rcases List.mem_append.mp hit with h5 | h5
      · exact hi it h5
      · rw [List.mem_singleton] at h5
        subst h5
        exact ⟨h1, h2, h3⟩
    · simp only [List.map_append, List.map_cons, List.map_nil]
      rw [hm]
    · unfold keyDistinct at hp ⊢
      rw [List.pairwise_append]
      refine ⟨hp, List.pairwise_singleton _ _, ?_⟩
      intro a ha b hb
      rw [List.mem_singleton] at hb
      subst hb
      exact h4 a ha

lemma stInv_foldl (ls : List (List Char)) : ∀ st, stInv st → stInv (ls.foldl processLine st) := by
  induction ls with
  | nil => intro st h; exact h
  | cons l rest ih => intro st h; exact ih _ (stInv_processLine st l h)

lemma scanState_inv (s : String) : stInv (scanState s) :=
  stInv_foldl _ _ stInv_init

lemma foldl_max_init_le (l : List Nat) : ∀ a, a ≤ l.foldl max a := by
  induction l with
  | nil => intro a; exact Nat.le_refl a
  | cons b t ih =>
    intro a
    simp only [List.foldl]
    exact le_trans (Nat.le_max_left a b) (ih (max a b))

lemma le_foldl_max (l : List Nat) : ∀ a, ∀ x ∈ l, x ≤ l.foldl max a := by
  induction l with
  | nil => intro a x hx; cases hx
  | cons b t ih =>
    intro a x hx
    simp only [List.foldl]
    rcases List.mem_cons.mp hx with rfl | hx
    · exact le_trans (Nat.le_max_right a x) (foldl_max_init_le t (max a x))
    · exact ih (max a b) x hx

lemma foldl_add_init_le (l : List Nat) : ∀ a, a ≤ l.foldl (· + ·) a := by
  induction l with
  | nil => intro a; exact Nat.le_refl a
  | cons b t ih =>
    intro a
    simp only [List.foldl]
    exact le_trans (Nat.le_add_right a b) (ih (a + b))

lemma le_foldl_add (l : List Nat) : ∀ a, ∀ x ∈ l, x ≤ l.foldl (· + ·) a := by
  induction l with
  | nil => intro a x hx; cases hx
  | cons b t ih =>
    intro a x hx
    simp only [List.foldl]
    rcases List.mem_cons.mp hx with rfl | hx
    · exact le_trans (Nat.le_add_left x a) (foldl_add_init_le t (a + x))
    · exact ih (a + b) x hx

lemma reconcile_items_mem (st : LoopState) (it : Item)
    (h : it ∈ (reconcile st).items) : it ∈ st.items := by
  unfold reconcile at h
  split at h
  · split at h
    · exact (List.mem_filter.mp h).1
    · exact h
  · exact h

lemma reconcile_items_sublist (st : LoopState) :
    List.Sublist (reconcile st).items st.items := by
  unfold reconcile
  split
  · split
    · exact List.filter_sublist _
    · exact List.Sublist.refl _
  · exact List.Sublist.refl _

lemma parse_items_bounds (s : String) :
    ∀ it ∈ (parse s).items, 10 ≤ it.price ∧ it.price ≤ 10000 ∧ 2 ≤ it.name.length := by
  intro it hit
  exact (scanState_inv s).1 it (reconcile_items_mem _ it hit)

lemma parse_keyDistinct (s : String) : keyDistinct (parse s).items :=
  List.Pairwise.sublist (reconcile_items_sublist (scanState s)) ((scanState_inv s).2.2.2)

lemma allPrices_ge_ten (s : String) : ∀ x ∈ (scanState s).allPrices, 10 ≤ x := by
  intro x hx
  have hm := (scanState_inv s).2.2.1
  rw [hm] at hx
  rcases List.mem_map.mp hx with ⟨it, hit, rfl⟩
  exact ((scanState_inv s).1 it hit).1

lemma parse_total_ge_ten (s : String) :
    ∀ t, (parse s).total = some t → 10 ≤ t := by
  intro t ht
  unfold parse reconcile at ht
  split at ht
  · next hc =>
    obtain ⟨x, hx⟩ := List.exists_mem_of_ne_nil _ hc.2
    split at ht
    · dsimp only at ht
      cases ht
      exact le_trans (allPrices_ge_ten s x hx) (le_foldl_max _ 0 x hx)
    · dsimp only at ht
      cases ht
      exact le_trans (allPrices_ge_ten s x hx) (le_foldl_add _ 0 x hx)
  · dsimp only at ht
    exact le_trans (by omega : (10 : Nat) ≤ 100)
      ((scanState_inv s).2.1 t ht).1

lemma takeDigitsUpTo_len_le : ∀ (n : Nat) (cs : List Char),
    (takeDigitsUpTo n cs).1.length ≤ n := by
  intro n
  induction n with
  | zero => intro cs; simp [takeDigitsUpTo]
  | succ k ih =>
    intro cs
    cases cs with
    | nil => simp [takeDigitsUpTo]
    | cons c rest =>
      simp only [takeDigitsUpTo]
      split
      · simpa using Nat.succ_le_succ (ih rest)
      · simp

lemma takeDigitsUpTo_all : ∀ (n : Nat) (cs : List Char),
    (takeDigitsUpTo n cs).1.all isAsciiDigit = true := by
  intro n
  induction n with
  | zero => intro cs; simp [takeDigitsUpTo]
  | succ k ih =>
    intro cs
    cases cs with
    | nil => simp [takeDigitsUpTo]
    | cons c rest =>
      simp only [takeDigitsUpTo]
      split
      · next hd =>
        simp only [List.all_cons, Bool.and_eq_true]
        exact ⟨hd, ih rest⟩
      · simp

/-- Soundness of a located price candidate: group 1 is a run of two to
five ASCII digits and group 2, when present, is a character of the
trailing marker class. -/
def pmOk (pm : PMatch) : Prop :=
  2 ≤ pm.digits.length ∧ pm.digits.length ≤ 5 ∧ pm.digits.all isAsciiDigit = true ∧
  (pm.suffix = none ∨ ∃ c, pm.suffix = some c ∧ isSuffixMark c = true)

lemma matchAt_spec (cs : List Char) (len : Nat) (ds : List Char) (suf : Option Char)
    (h : matchAt cs = some (len, ds, suf)) :
    2 ≤ ds.length ∧ ds.length ≤ 5 ∧ ds.all isAsciiDigit = true ∧
    (suf = none ∨ ∃ c, suf = some c ∧ isSuffixMark c = true) := by
  cases cs with
  | nil => simp [matchAt] at h
  | cons c rest =>
    unfold matchAt at h
    dsimp only at h
    split at h
    · split at h
      · exact absurd h (by simp)
      · next hlen =>
        push_neg at hlen
        split at h
        · split at h
          · next hmark =>
            simp only [Option.some.injEq, Prod.mk.injEq] at h
            obtain ⟨h1, h2, h3⟩ := h
            subst h2
            subst h3
            refine ⟨hlen, takeDigitsUpTo_len_le 5 _, takeDigitsUpTo_all 5 _, ?_⟩
            exact Or.inr ⟨_, rfl, hmark⟩
          · simp only [Option.some.injEq, Prod.mk.injEq] at h
            obtain ⟨h1, h2, h3⟩ := h
            subst h2
            subst h3
            exact ⟨hlen, takeDigitsUpTo_len_le 5 _, takeDigitsUpTo_all 5 _, Or.inl rfl⟩
        · simp only [Option.some.injEq, Prod.mk.injEq] at h
          obtain ⟨h1, h2, h3⟩ := h
          subst h2
          subst h3
          exact ⟨hlen, takeDigitsUpTo_len_le 5 _, takeDigitsUpTo_all 5 _, Or.inl rfl⟩
    · exact absurd h (by simp)

lemma findMatchesAux_pmOk :
    ∀ (fuel : Nat) (cs : List Char) (pos : Nat) (pm : PMatch),
      pm ∈ findMatchesAux fuel cs pos → pmOk pm := by
  intro fuel
  induction fuel with
  | zero => intro cs pos pm h; simp [findMatchesAux] at h
  | succ k ih =>
    intro cs pos pm h
    cases cs with
    | nil => simp [findMatchesAux] at h
    | cons c rest =>
      unfold findMatchesAux at h
      split at h
      · next len ds suf heq =>
        rcases List.mem_cons.mp h with rfl | h2
        · exact matchAt_spec _ _ _ _ heq
        · exact ih _ _ _ h2
      · exact ih _ _ _ h

lemma findMatches_pmOk (cs : List Char) (pos : Nat) (pm : PMatch)
    (h : pm ∈ findMatches cs pos) : pmOk pm :=
  findMatchesAux_pmOk _ _ _ _ h

/-- Claim C1, counterexample: on the empty transcript the response has
success true although the items list is empty and the total is null,
so success is not equivalent to the presence of items or a total. -/
theorem claim1_counterexample :
    ¬ ((scanResponse ("")).success = true ↔
      ((scanResponse ("")).items ≠ [] ∨ (scanResponse ("")).total ≠ none)) := by
  decide

/-- Claim C1, amended: the success field of every scan response is
true (the error path raises an HTTP exception instead of returning a
body); a transcript that yields zero items and no total still gets
success true, with empty items and null total, and no exception. -/
theorem claim1_success_flag :
    (∀ t : String, (scanResponse t).success = true) ∧
    (scanResponse ("")).items = [] ∧ (scanResponse ("")).total = none :=
  ⟨fun _ => rfl, rfl, rfl⟩

/-- Claim C2, counterexample: a transcript with a single 30 yen item
and no total line resolves total 30, which is below 100. -/
theorem claim2_counterexample :
    (parse ("ああ ¥30")).total = some 30 ∧ ¬ (100 ≤ 30) := by
  decide

/-- Claim C2, amended: every returned item price lies in 10 to 10000;
every returned total is at least 10; a total resolved from a
total-declaration line is at least 100. -/
theorem claim2_price_bounds (s : String) :
    (∀ it ∈ (parse s).items, 10 ≤ it.price ∧ it.price ≤ 10000) ∧
    (∀ t, (parse s).total = some t → 10 ≤ t) ∧
    (∀ t, declaredTotal s = some t → 100 ≤ t) := by
  refine ⟨?_, parse_total_ge_ten s, ?_⟩
  · intro it hit
    exact ⟨(parse_items_bounds s it hit).1, (parse_items_bounds s it hit).2.1⟩
  · intro t ht
    exact ((scanState_inv s).2.1 t ht).1

/-- Claim C2, witness. -/
theorem claim2_price_bounds_w :
    (10 ≤ 345 ∧ 345 ≤ 10000) ∧ 10 ≤ 30 ∧ 100 ≤ 355 :=
  ⟨(claim2_price_bounds ("12 ¥345")).1 ⟨("12").toList, 345⟩ (by decide),
   (claim2_price_bounds ("ああ ¥30")).2.1 30 (by decide),
   (claim2_price_bounds ("合計 ¥355")).2.2 355 (by decide)⟩

/-- Claim C3, counterexample: an item name followed by a bare trailing
digit run but no currency marker yields no item and no total, so no
fallback digit-run rule exists. -/
theorem claim3_counterexample : parse ("パン 247") = ⟨[], none⟩ := by
  decide

/-- Claim C3, amended: there is no fallback rule; a line on which the
currency-marker price pattern finds no match is skipped entirely and
contributes neither an item nor a total. -/
theorem claim3_no_fallback (st : LoopState) (rawLine : List Char)
    (h : findMatches (pyStrip rawLine) 0 = []) : processLine st rawLine = st := by
  unfold processLine
  dsimp only
  rw [h]
  split <;> rfl

/-- Claim C3, witness. -/
theorem claim3_no_fallback_w :
    processLine initState (("パン 247").toList) = initState :=
  claim3_no_fallback initState (("パン 247").toList) (by decide)

/-- Claim C4, counterexample: on the empty transcript no declaration
line sets a total and no item is collected, and the returned total is
null rather than the sum (zero) of the empty price list. -/
theorem claim4_counterexample :
    declaredTotal ("") = none ∧ (parse ("")).items = [] ∧
    (parse ("")).total = none := by
  decide

/-- Claim C4, amended: when no total-declaration line set a total and
at least one item price was collected, the recorded prices are exactly
the item prices, and the returned total is the largest recorded price
exactly when there is more than one price and five times the largest
is at least four times the sum (the float eighty percent comparison of
the source), in which case every item carrying that price is absent
from the returned items; otherwise the returned total is the exact sum
of the recorded prices and the items are returned unchanged. -/
theorem claim4_total_fallback (s : String) (h1 : declaredTotal s = none)
    (h2 : (scanState s).allPrices ≠ []) :
    (scanState s).allPrices = (scanState s).items.map Item.price ∧
    (((scanState s).allPrices.length > 1 ∧
        5 * listMax0 ((scanState s).allPrices) ≥ 4 * listSum ((scanState s).allPrices)) →
      (parse s).total = some (listMax0 ((scanState s).allPrices)) ∧
        ∀ it ∈ (parse s).items, it.price ≠ listMax0 ((scanState s).allPrices)) ∧
    (¬ ((scanState s).allPrices.length > 1 ∧
        5 * listMax0 ((scanState s).allPrices) ≥ 4 * listSum ((scanState s).allPrices)) →
      (parse s).total = some (listSum ((scanState s).allPrices)) ∧
        (parse s).items = (scanState s).items) := by
  unfold declaredTotal at h1
  have hcond : (scanState s).total.getD 0 = 0 ∧ (scanState s).allPrices ≠ [] :=
    ⟨by rw [h1]; rfl, h2⟩
  refine ⟨(scanState_inv s).2.2.1, ?_, ?_⟩
  · intro hc
    unfold parse reconcile
    rw [if_pos hcond, if_pos hc]
    refine ⟨rfl, ?_⟩
    intro it hit
    dsimp only at hit
    have hmem := (List.mem_filter.mp hit).2
    simpa using hmem
  · intro hc
    unfold parse reconcile
    rw [if_pos hcond, if_neg hc]
    exact ⟨rfl, rfl⟩

/-- Claim C4, witness. -/
theorem claim4_total_fallback_w :
    (parse ("ああ ¥30")).total = some (listSum ((scanState ("ああ ¥30")).allPrices)) ∧
      (parse ("ああ ¥30")).items = (scanState ("ああ ¥30")).items :=
  (claim4_total_fallback ("ああ ¥30") (by decide) (by decide)).2.2 (by decide)

/-- Claim C5: parse is a total function (witnessed by these
definitions being total Lean functions) whose result is well formed,
every returned item having a nonempty name of at least two characters;
and every line either leaves the loop state unchanged (a discarded
line: no match, unparseable or out-of-range token, excluded or
rejected name, duplicate), or only sets the total, or only appends one
item and its price, so processing always continues with the next
line. -/
theorem claim5_safety (s : String) (st : LoopState) (rawLine : List Char) :
    (∀ it ∈ (parse s).items, it.name ≠ [] ∧ 2 ≤ it.name.length) ∧
    (processLine st rawLine = st ∨
      (∃ p, processLine st rawLine = { st with total := some p }) ∨
      (∃ nm p, processLine st rawLine =
        { st with items := st.items ++ [⟨nm, p⟩], allPrices := st.allPrices ++ [p] })) := by
  constructor
  · intro it hit
    have h := (parse_items_bounds s it hit).2.2
    refine ⟨?_, h⟩
    intro hn
    rw [hn] at h
    simp at h
  · rcases processLine_spec st rawLine with h | ⟨p, _, _, h⟩ | ⟨nm, p, _, _, _, _, h⟩
    · exact Or.inl h
    · exact Or.inr (Or.inl ⟨p, h⟩)
    · exact Or.inr (Or.inr ⟨nm, p, h⟩)

/-- Claim C5, witness. -/
theorem claim5_safety_w :
    (⟨("パン").toList, 247⟩ : Item).name ≠ [] ∧
      2 ≤ (⟨("パン").toList, 247⟩ : Item).name.length :=
  (claim5_safety ("パン\\24/") initState []).1 ⟨("パン").toList, 247⟩ (by decide)

/-- Claim C6, counterexample: the duplicated line 水 ¥108 yields no
item at all, because the one-character name is rejected, contradicting
the scenario that promises a single item. -/
theorem claim6_counterexample : (parse ("水 ¥108\n水 ¥108")).items = [] := by
  decide

/-- Claim C6, amended: the name and price keys of the returned items
are pairwise distinct for every transcript, duplicates being collapsed
to the first occurrence; the duplicate-line scenario holds for a valid
two-character name, as in お水 ¥108 twice yielding the single item
お水 with price 108 (the original 水 ¥108 yields no item, its
one-character name being rejected). -/
theorem claim6_dedup (s : String) :
    ((parse s).items.map (fun it => (it.name, it.price))).Nodup ∧
    (parse ("お水 ¥108\nお水 ¥108")).items = [⟨("お水").toList, 108⟩] := by
  constructor
  · have hp := parse_keyDistinct s
    unfold keyDistinct at hp
    have hpw : List.Pairwise (fun a b => a ≠ b)
        ((parse s).items.map (fun it => (it.name, it.price))) := by
      rw [List.pairwise_map]
      refine hp.imp ?_
      intro a b hab heq
      apply hab
      rw [Prod.mk.injEq] at heq
      exact heq
    exact hpw
  · decide

/-- Claim C7, counterexample: a currency marker followed by a single
digit is not located as a price candidate, and the line yields
nothing. -/
theorem claim7_counterexample :
    findMatches (("パン ¥7").toList) 0 = [] ∧ parse ("パン ¥7") = ⟨[], none⟩ := by
  decide

/-- Claim C7, amended: every candidate the price locator returns has a
currency-marker match whose digit run holds two to five ASCII digits
(not one to six) with an optional trailing marker; a marker followed
by two digits is located, and a marker followed by six digits is
located with only its first five digits as the run. -/
theorem claim7_primary_rule :
    (∀ cs pos pm, pm ∈ findMatches cs pos → pmOk pm) ∧
    (findMatches (("¥24").toList) 0).map PMatch.digits = [("24").toList] ∧
    (findMatches (("¥123456").toList) 0).map PMatch.digits = [("12345").toList] :=
  ⟨fun cs pos pm h => findMatches_pmOk cs pos pm h, by decide, by decide⟩

/-- Claim C7, witness. -/
theorem claim7_primary_rule_w : pmOk ⟨0, 3, ("24").toList, none⟩ :=
  claim7_primary_rule.1 (("¥24").toList) 0 ⟨0, 3, ("24").toList, none⟩ (by decide)

/-- Claim C8, counterexample: the purely numeric two-digit name 12
yields an item, contradicting the rule that purely numeric pre-price
text never does. -/
theorem claim8_counterexample :
    (parse ("12 ¥345")).items = [⟨("12").toList, 345⟩] ∧
    (("12").toList).all isAsciiDigit = true := by
  decide

/-- Claim C8, amended: the name checks reject a name shorter than two
characters, a nonempty name made only of characters outside the name
class, and any name holding a run of four or more digits, but a purely
numeric pre-price text of two or three digits is accepted and yields
an item. -/
theorem claim8_name_rules :
    (∀ nm line : List Char, nm.length < 2 → shouldExclude nm line = true) ∧
    (∀ nm line : List Char, nm ≠ [] → nm.all (fun c => !(isNameChar c)) = true →
      shouldExclude nm line = true) ∧
    (∀ nm line : List Char, containsFourDigits nm = true →
      shouldExclude nm line = true) ∧
    (parse ("12 ¥345")).items = [⟨("12").toList, 345⟩] := by
  refine ⟨?_, ?_, ?_, by decide⟩
  · intro nm line h
    simp [shouldExclude, h]
  · intro nm line h1 h2
    cases nm with
    | nil => exact absurd rfl h1
    | cons a t => simp_all [shouldExclude]
  · intro nm line h
    simp [shouldExclude, excludeSearch, h]

/-- Claim C8, witness. -/
theorem claim8_name_rules_w :
    shouldExclude (("あ").toList) [] = true ∧
    shouldExclude (("○○").toList) [] = true ∧
    shouldExclude (("1234").toList) [] = true :=
  ⟨claim8_name_rules.1 (("あ").toList) [] (by decide),
   claim8_name_rules.2.1 (("○○").toList) [] (by decide) (by decide),
   claim8_name_rules.2.2.1 (("1234").toList) [] (by decide)⟩

/-- Claim C9: the garbled line with the currency symbol misread as a
backslash and a trailing slash artifact yields the corrected price
247 (the slash group appends a 7 to the two-digit token), and the
prepend-1 heuristic does not additionally fire on the resulting
three-digit token. -/
theorem claim9_slash_correction :
    parse ("パン\\24/") = ⟨[⟨("パン").toList, 247⟩], some 247⟩ ∧
    correctOcrPrice (("247").toList) (("\\24/").toList) = (("247").toList, false) := by
  decide

/-- Claim C10: every total resolved from a total-declaration line lies
in 100 to 10000 (the item price-range check runs before the total
keyword check), and a returned total above 10000 can only come from
the fallback inference, never from a declaration line. -/
theorem claim10_total_bounds (s : String) (t : Nat) :
    (declaredTotal s = some t → 100 ≤ t ∧ t ≤ 10000) ∧
    ((parse s).total = some t → 10000 < t → declaredTotal s = none) := by
  constructor
  · intro h
    exact (scanState_inv s).2.1 t h
  · intro ht hgt
    unfold declaredTotal
    cases hst : (scanState s).total with
    | none => rfl
    | some t0 =>
      exfalso
      have hb := (scanState_inv s).2.1 t0 hst
      unfold parse reconcile at ht
      rw [hst] at ht
      have hne : ¬ (((some t0).getD 0 = 0) ∧ (scanState s).allPrices ≠ []) := by
        intro hcc
        simp only [Option.getD] at hcc
        omega
      rw [if_neg hne] at ht
      dsimp only at ht
      cases ht
      omega

/-- Claim C10, witness. -/
theorem claim10_total_bounds_w :
    (100 ≤ 355 ∧ 355 ≤ 10000) ∧
    declaredTotal ("ああ ¥900\nいい ¥900\nうう ¥900\nええ ¥900\nおお ¥900\nかか ¥900\nきき ¥900\nくく ¥900\nけけ ¥900\nここ ¥900\nささ ¥900\nしし ¥900") = none :=
  ⟨(claim10_total_bounds ("合計 ¥355") 355).1 (by decide),
   (claim10_total_bounds ("ああ ¥900\nいい ¥900\nうう ¥900\nええ ¥900\nおお ¥900\nかか ¥900\nきき ¥900\nくく ¥900\nけけ ¥900\nここ ¥900\nささ ¥900\nしし ¥900") 10800).2
     (by decide) (by decide)⟩
